import Mathlib

/-!
Verification development for the image-compress-golang-webp service.

The repository holds four near-duplicate variants of a single-endpoint Go
server:
  * `main.go`, first document  — variant "main" (has /health and /debug,
    `getCwebpPath` defaults to the bare command "cwebp");
  * `main.go`, second document — variant "railway" (has /health,
    `getCwebpPath` defaults to "/app/libwebp/bin/cwebp");
  * `src/unnamed/part_000`     — variant "part000" (no /health route,
    LIBWEBP_PATH is required and always joined after the working
    directory, quality hardcoded to "80");
  * `src/unnamed/part_001`     — variant "part001" (has /health, bare
    command "cwebp", quality query parameter honoured).

The Go standard-library path helpers the code relies on
(`filepath.Ext`, `filepath.Clean`, `filepath.Join`) are embedded first,
then each variant's handler is embedded as a pure function over an
explicit world of effect outcomes, recording the response, the final
filesystem and the commands executed.
-/

set_option maxRecDepth 4000

namespace WebpService

/-- Scanner for Go `filepath.Ext`, working on the reversed character list
of the path: returns the reversed extension (the suffix of the path that
starts at the final dot of the final slash-separated element), or `[]`
when there is none. -/
def extRev : List Char → List Char
  | [] => []
  | c :: rest =>
    if c = '/' then []
    else if c = '.' then [c]
    else
      match extRev rest with
      | [] => []
      | e => c :: e

/-- Go `filepath.Ext` (unix): the suffix beginning at the final dot in the
final slash-separated element of the path; empty if there is no dot. -/
def filepathExt (p : String) : String :=
  String.mk ((extRev p.data.reverse).reverse)

/-- Source `filenameWithoutExt` (identical in all four variants):
`ext := filepath.Ext(filename); return filename[:len(filename)-len(ext)]`. -/
def filenameWithoutExt (filename : String) : String :=
  let ext := filepathExt filename
  String.mk (filename.data.take (filename.data.length - ext.data.length))

/-- Backtracking index search of Go `filepath.Clean`: starting from index
`w`, decrement while `w > dotdot` and `out[w] ≠ '/'`; the output buffer is
then truncated to the resulting index. -/
def btIndex (out : List Char) (dotdot : Nat) : Nat → Nat
  | 0 => 0
  | w + 1 =>
    if dotdot < w + 1 ∧ ¬ (out.get? (w + 1) = some '/') then btIndex out dotdot w
    else w + 1

/-- The `out.w > dotdot` backtracking case of Go `filepath.Clean`: drop the
last path component (and its preceding separator) from the output buffer. -/
def backtrack (out : List Char) (dotdot : Nat) : List Char :=
  List.take (btIndex out dotdot (out.length - 1)) out

/-- Main loop of Go `filepath.Clean` (unix separator), transcribed from
`path/filepath/path.go`: `inp` is the unread input, `out` the output
buffer, `dotdot` the limit below which `..` may not backtrack.  The
`fuel` argument only makes the recursion structural (hence computable by
the kernel): every loop iteration consumes at least one input character,
so with `fuel = inp.length` the fuel-exhaustion case is unreachable. -/
def cleanLoop (rooted : Bool) : Nat → List Char → List Char → Nat → List Char
  | _, [], out, _ => out
  | 0, _ :: _, out, _ => out
  | fuel + 1, c :: rest, out, dotdot =>
    if c = '/' then
      cleanLoop rooted fuel rest out dotdot
    else if c = '.' ∧ (rest.head? = none ∨ rest.head? = some '/') then
      cleanLoop rooted fuel rest out dotdot
    else if c = '.' ∧ rest.head? = some '.' ∧ (rest.get? 1 = none ∨ rest.get? 1 = some '/') then
      if dotdot < out.length then
        cleanLoop rooted fuel rest.tail (backtrack out dotdot) dotdot
      else if rooted = false then
        let out2 := (if 0 < out.length then out ++ ['/'] else out) ++ ['.', '.']
        cleanLoop rooted fuel rest.tail out2 out2.length
      else
        cleanLoop rooted fuel rest.tail out dotdot
    else
      let comp := c :: rest.takeWhile (fun x => ¬ (x = '/'))
      let rest2 := rest.dropWhile (fun x => ¬ (x = '/'))
      let out2 :=
        (if (rooted ∧ ¬ out.length = 1) ∨ (rooted = false ∧ ¬ out.length = 0)
         then out ++ ['/'] else out) ++ comp
      cleanLoop rooted fuel rest2 out2 dotdot

/-- Go `filepath.Clean` for the unix separator. -/
def pathClean (p : String) : String :=
  if p = "" then (".")
  else
    let cs := p.data
    if cs.head? = some '/' then
      let out := cleanLoop true cs.tail.length cs.tail ['/'] 1
      if out.isEmpty then (".") else String.mk out
    else
      let out := cleanLoop false cs.length cs [] 0
      if out.isEmpty then (".") else String.mk out

/-- Go `filepath.Join`: skip leading empty elements, join the rest with
the separator and `Clean` the result; all-empty input gives "". -/
def filepathJoin (elems : List String) : String :=
  match elems.dropWhile (fun e => e = "") with
  | [] => ""
  | es => pathClean (String.intercalate ("/") es)

/-- Gin `c.DefaultQuery(key, default)`: the query value when the key is
present, the default otherwise.  The query parameter of a request is
modelled as `Option String`. -/
def ginDefaultQuery (v : Option String) (dflt : String) : String :=
  match v with
  | some s => s
  | none => dflt

/-- Key-ordered insertion used to render JSON objects with the sorted
field order of `encoding/json` map marshalling. -/
def insertByKey (kv : String × String) : List (String × String) → List (String × String)
  | [] => [kv]
  | e :: rest => if kv.1 < e.1 then kv :: e :: rest else e :: insertByKey kv rest

/-- Insertion sort by field key. -/
def sortByKey : List (String × String) → List (String × String)
  | [] => []
  | e :: rest => insertByKey e (sortByKey rest)

/-- Rendering of a flat JSON object of string fields the way
`encoding/json` marshals a `gin.H` map: fields sorted by key.  Only used
at concrete escape-free field values. -/
def renderJson (fields : List (String × String)) : String :=
  let parts := (sortByKey fields).map (fun kv => "\"" ++ kv.1 ++ "\":\"" ++ kv.2 ++ "\"")
  "\x7b" ++ String.intercalate (",") parts ++ "\x7d"

/-- Value of a decimal-digit character. -/
def charDigit (c : Char) : Option Nat :=
  if '0' ≤ c ∧ c ≤ '9' then some (c.toNat - ('0').toNat) else none

/-- Accumulating decimal parser over a character list. -/
def decimalValAux (acc : Nat) : List Char → Option Nat
  | [] => some acc
  | c :: rest =>
    match charDigit c with
    | some d => decimalValAux (acc * 10 + d) rest
    | none => none

/-- Decides whether a string is a decimal integer in [0,100], the claim's
notion of a valid quality parameter. -/
def validQuality (s : String) : Bool :=
  match s.data with
  | [] => false
  | cs =>
    match decimalValAux 0 cs with
    | some n => n ≤ 100
    | none => false

/-- Body of an HTTP response: a JSON object of string fields (`c.JSON`)
or raw bytes with a content type (`c.Data`). -/
inductive RBody where
  | json : List (String × String) → RBody
  | data : String → List Nat → RBody
deriving DecidableEq

/-- An HTTP response: status, extra headers set via `c.Header`, body. -/
structure Response where
  status : Nat
  headers : List (String × String)
  body : RBody
deriving DecidableEq

/-- The filesystem fragment the handler touches: a list of directories
and an association list of files with their byte contents. -/
structure Fs where
  dirs : List String
  files : List (String × List Nat)
deriving DecidableEq

/-- Effect of `os.MkdirTemp` having produced directory `d`. -/
def Fs.mkdir (fs : Fs) (d : String) : Fs :=
  ⟨d :: fs.dirs, fs.files⟩

/-- Effect of creating/truncating the file at `p` with contents `c`
(`os.Create` followed by writes). -/
def Fs.writeFile (fs : Fs) (p : String) (c : List Nat) : Fs :=
  ⟨fs.dirs, (p, c) :: fs.files.filter (fun e => ¬ (e.1 = p))⟩

/-- Semantics of `os.ReadFile`. -/
def Fs.readFile (fs : Fs) (p : String) : Option (List Nat) :=
  (fs.files.find? (fun e => e.1 = p)).map (fun e => e.2)

/-- Go `strings.HasPrefix s pre` over the character lists. -/
def goHasPre (s pre : String) : Bool :=
  pre.data.isPrefixOf s.data

/-- Whether path `p` is the directory `d` itself or lies beneath it. -/
def underOrEq (d p : String) : Bool :=
  p = d || goHasPre p (d ++ "/")

/-- Semantics of `os.RemoveAll d`: drop `d` and everything beneath it. -/
def Fs.removeAll (fs : Fs) (d : String) : Fs :=
  ⟨fs.dirs.filter (fun p => ¬ underOrEq d p),
   fs.files.filter (fun e => ¬ underOrEq d e.1)⟩

/-- A successfully parsed multipart upload: `header.Filename` and the
uploaded bytes. -/
structure Upload where
  filename : String
  content : List Nat
deriving DecidableEq

/-- Outcome of `exec.Command(...).CombinedOutput()` for the encoder:
`ok written` is a zero exit where `written` is the file deposited at the
output path (`none` models an output that cannot be read back);
`fail output` is a non-zero exit or launch failure with the combined
captured stdout+stderr. -/
inductive EncoderResult where
  | ok : Option (List Nat) → EncoderResult
  | fail : String → EncoderResult

/-- Environment read by `getCwebpPath`: the `LIBWEBP_PATH` variable
(`""` when unset, as `os.Getenv` reports) and the result of `os.Getwd`
(the error side carrying the underlying error text). -/
structure PathEnv where
  libwebpPath : String
  getwd : Except String String

/-- One request's world: the prior filesystem, the outcomes the
environment hands to each effectful step, and the encoder's behaviour as
a function of the command name and argument list. -/
structure World where
  fs0 : Fs
  formFile : Option Upload
  tempDirResult : Except Unit String
  createFails : Bool
  copyFails : Bool
  libwebpPath : String
  getwdResult : Except String String
  quality : Option String
  encoder : String → List String → EncoderResult

/-- Result of running a handler: the response, the final filesystem, and
the subprocess invocations performed (name and argument list). -/
structure HResult where
  response : Response
  fs : Fs
  exec : List (String × List String)

/-- Source `getCwebpPath` of the first `main.go` variant: absolute
`LIBWEBP_PATH` is joined with `bin/cwebp` directly, a relative one is
joined after the working directory, and the default is the bare command
`cwebp`. -/
def getCwebpPath (env : PathEnv) : Except String String :=
  if ¬ (env.libwebpPath = "") then
    if goHasPre env.libwebpPath ("/") then
      Except.ok (filepathJoin [env.libwebpPath, "bin", "cwebp"])
    else
      match env.getwd with
      | Except.error e => Except.error ("failed to get working directory: " ++ e)
      | Except.ok workDir =>
        Except.ok (filepathJoin [workDir, env.libwebpPath, "bin", "cwebp"])
  else
    Except.ok ("cwebp")

/-- Source `getCwebpPath` of the second `main.go` variant (Railway
deployment): identical except that the default is the fixed absolute
install location. -/
def getCwebpPathRailway (env : PathEnv) : Except String String :=
  if ¬ (env.libwebpPath = "") then
    if goHasPre env.libwebpPath ("/") then
      Except.ok (filepathJoin [env.libwebpPath, "bin", "cwebp"])
    else
      match env.getwd with
      | Except.error e => Except.error ("failed to get working directory: " ++ e)
      | Except.ok workDir =>
        Except.ok (filepathJoin [workDir, env.libwebpPath, "bin", "cwebp"])
  else
    Except.ok ("/app/libwebp/bin/cwebp")

/-- Inline encoder-path construction of the `part_000` variant:
`filepath.Join(workDir, libwebpPath, "bin", "cwebp")`, applied whether or
not the override is absolute. -/
def cwebpPathPart000 (workDir libwebpPath : String) : String :=
  filepathJoin [workDir, libwebpPath, "bin", "cwebp"]

/-- Handler `convertToWebP` of the first `main.go` variant, as a pure
function of the request's world.  Each early `return` carries the
response of the corresponding branch of the source; every exit after
`os.MkdirTemp` succeeds applies the deferred `os.RemoveAll(tempDir)`. -/
def convertToWebPMain (w : World) : HResult :=
  match w.formFile with
  | none =>
    ⟨⟨400, [], RBody.json [("error", "No image file provided")]⟩, w.fs0, []⟩
  | some upload =>
    match w.tempDirResult with
    | Except.error _ =>
      ⟨⟨500, [], RBody.json [("error", "Failed to create temp directory")]⟩, w.fs0, []⟩
    | Except.ok tempDir =>
      let fs1 := w.fs0.mkdir tempDir
      let inputPath := filepathJoin [tempDir, upload.filename]
      if w.createFails then
        ⟨⟨500, [], RBody.json [("error", "Failed to save uploaded file")]⟩,
         fs1.removeAll tempDir, []⟩
      else
        let fs2 := fs1.writeFile inputPath []
        if w.copyFails then
          ⟨⟨500, [], RBody.json [("error", "Failed to copy uploaded file")]⟩,
           fs2.removeAll tempDir, []⟩
        else
          let fs3 := fs2.writeFile inputPath upload.content
          let outputFilename := filenameWithoutExt upload.filename ++ ".webp"
          let outputPath := filepathJoin [tempDir, outputFilename]
          match getCwebpPath ⟨w.libwebpPath, w.getwdResult⟩ with
          | Except.error e =>
            ⟨⟨500, [], RBody.json [("error", e)]⟩, fs3.removeAll tempDir, []⟩
          | Except.ok cwebpPath =>
            let quality := ginDefaultQuery w.quality ("80")
            let args := ["-q", quality, inputPath, "-o", outputPath]
            match w.encoder cwebpPath args with
            | EncoderResult.fail output =>
              ⟨⟨500, [], RBody.json [("error", "Failed to convert image"), ("details", output)]⟩,
               fs3.removeAll tempDir, [(cwebpPath, args)]⟩
            | EncoderResult.ok written =>
              let fs4 := match written with
                         | some b => fs3.writeFile outputPath b
                         | none => fs3
              match fs4.readFile outputPath with
              | none =>
                ⟨⟨500, [], RBody.json [("error", "Failed to read converted file")]⟩,
                 fs4.removeAll tempDir, [(cwebpPath, args)]⟩
              | some webpData =>
                ⟨⟨200, [("Content-Disposition", "attachment; filename=" ++ outputFilename)],
                  RBody.data ("image/webp") webpData⟩,
                 fs4.removeAll tempDir, [(cwebpPath, args)]⟩

/-- Handler `convertToWebP` of the second `main.go` variant: identical to
the first except that it resolves the encoder through
`getCwebpPathRailway`. -/
def convertToWebPRailway (w : World) : HResult :=
  match w.formFile with
  | none =>
    ⟨⟨400, [], RBody.json [("error", "No image file provided")]⟩, w.fs0, []⟩
  | some upload =>
    match w.tempDirResult with
    | Except.error _ =>
      ⟨⟨500, [], RBody.json [("error", "Failed to create temp directory")]⟩, w.fs0, []⟩
    | Except.ok tempDir =>
      let fs1 := w.fs0.mkdir tempDir
      let inputPath := filepathJoin [tempDir, upload.filename]
      if w.createFails then
        ⟨⟨500, [], RBody.json [("error", "Failed to save uploaded file")]⟩,
         fs1.removeAll tempDir, []⟩
      else
        let fs2 := fs1.writeFile inputPath []
        if w.copyFails then
          ⟨⟨500, [], RBody.json [("error", "Failed to copy uploaded file")]⟩,
           fs2.removeAll tempDir, []⟩
        else
          let fs3 := fs2.writeFile inputPath upload.content
          let outputFilename := filenameWithoutExt upload.filename ++ ".webp"
          let outputPath := filepathJoin [tempDir, outputFilename]
          match getCwebpPathRailway ⟨w.libwebpPath, w.getwdResult⟩ with
          | Except.error e =>
            ⟨⟨500, [], RBody.json [("error", e)]⟩, fs3.removeAll tempDir, []⟩
          | Except.ok cwebpPath =>
            let quality := ginDefaultQuery w.quality ("80")
            let args := ["-q", quality, inputPath, "-o", outputPath]
            match w.encoder cwebpPath args with
            | EncoderResult.fail output =>
              ⟨⟨500, [], RBody.json [("error", "Failed to convert image"), ("details", output)]⟩,
               fs3.removeAll tempDir, [(cwebpPath, args)]⟩
            | EncoderResult.ok written =>
              let fs4 := match written with
                         | some b => fs3.writeFile outputPath b
                         | none => fs3
              match fs4.readFile outputPath with
              | none =>
                ⟨⟨500, [], RBody.json [("error", "Failed to read converted file")]⟩,
                 fs4.removeAll tempDir, [(cwebpPath, args)]⟩
              | some webpData =>
                ⟨⟨200, [("Content-Disposition", "attachment; filename=" ++ outputFilename)],
                  RBody.data ("image/webp") webpData⟩,
                 fs4.removeAll tempDir, [(cwebpPath, args)]⟩

/-- Handler `convertToWebP` of the `part_000` variant: `LIBWEBP_PATH` is
required (500 when unset), the encoder path always joins the working
directory first, and the quality argument is the literal "80". -/
def convertToWebPPart000 (w : World) : HResult :=
  match w.formFile with
  | none =>
    ⟨⟨400, [], RBody.json [("error", "No image file provided")]⟩, w.fs0, []⟩
  | some upload =>
    match w.tempDirResult with
    | Except.error _ =>
      ⟨⟨500, [], RBody.json [("error", "Failed to create temp directory")]⟩, w.fs0, []⟩
    | Except.ok tempDir =>
      let fs1 := w.fs0.mkdir tempDir
      let inputPath := filepathJoin [tempDir, upload.filename]
      if w.createFails then
        ⟨⟨500, [], RBody.json [("error", "Failed to save uploaded file")]⟩,
         fs1.removeAll tempDir, []⟩
      else
        let fs2 := fs1.writeFile inputPath []
        if w.copyFails then
          ⟨⟨500, [], RBody.json [("error", "Failed to copy uploaded file")]⟩,
           fs2.removeAll tempDir, []⟩
        else
          let fs3 := fs2.writeFile inputPath upload.content
          let outputFilename := filenameWithoutExt upload.filename ++ ".webp"
          let outputPath := filepathJoin [tempDir, outputFilename]
          if w.libwebpPath = "" then
            ⟨⟨500, [], RBody.json [("error", "LIBWEBP_PATH environment variable not set")]⟩,
             fs3.removeAll tempDir, []⟩
          else
            match w.getwdResult with
            | Except.error _ =>
              ⟨⟨500, [], RBody.json [("error", "Failed to get working directory")]⟩,
               fs3.removeAll tempDir, []⟩
            | Except.ok workDir =>
              let cwebpPath := cwebpPathPart000 workDir w.libwebpPath
              let args := ["-q", "80", inputPath, "-o", outputPath]
              match w.encoder cwebpPath args with
              | EncoderResult.fail output =>
                ⟨⟨500, [], RBody.json [("error", "Failed to convert image"), ("details", output)]⟩,
                 fs3.removeAll tempDir, [(cwebpPath, args)]⟩
              | EncoderResult.ok written =>
                let fs4 := match written with
                           | some b => fs3.writeFile outputPath b
                           | none => fs3
                match fs4.readFile outputPath with
                | none =>
                  ⟨⟨500, [], RBody.json [("error", "Failed to read converted file")]⟩,
                   fs4.removeAll tempDir, [(cwebpPath, args)]⟩
                | some webpData =>
                  ⟨⟨200, [("Content-Disposition", "attachment; filename=" ++ outputFilename)],
                    RBody.data ("image/webp") webpData⟩,
                   fs4.removeAll tempDir, [(cwebpPath, args)]⟩

/-- Handler `convertToWebP` of the `part_001` variant: the encoder is the
bare command `cwebp` with no path resolution; the quality query parameter
is honoured with default "80". -/
def convertToWebPPart001 (w : World) : HResult :=
  match w.formFile with
  | none =>
    ⟨⟨400, [], RBody.json [("error", "No image file provided")]⟩, w.fs0, []⟩
  | some upload =>
    match w.tempDirResult with
    | Except.error _ =>
      ⟨⟨500, [], RBody.json [("error", "Failed to create temp directory")]⟩, w.fs0, []⟩
    | Except.ok tempDir =>
      let fs1 := w.fs0.mkdir tempDir
      let inputPath := filepathJoin [tempDir, upload.filename]
      if w.createFails then
        ⟨⟨500, [], RBody.json [("error", "Failed to save uploaded file")]⟩,
         fs1.removeAll tempDir, []⟩
      else
        let fs2 := fs1.writeFile inputPath []
        if w.copyFails then
          ⟨⟨500, [], RBody.json [("error", "Failed to copy uploaded file")]⟩,
           fs2.removeAll tempDir, []⟩
        else
          let fs3 := fs2.writeFile inputPath upload.content
          let outputFilename := filenameWithoutExt upload.filename ++ ".webp"
          let outputPath := filepathJoin [tempDir, outputFilename]
          let quality := ginDefaultQuery w.quality ("80")
          let args := ["-q", quality, inputPath, "-o", outputPath]
          match w.encoder ("cwebp") args with
          | EncoderResult.fail output =>
            ⟨⟨500, [], RBody.json [("error", "Failed to convert image"), ("details", output)]⟩,
             fs3.removeAll tempDir, [("cwebp", args)]⟩
          | EncoderResult.ok written =>
            let fs4 := match written with
                       | some b => fs3.writeFile outputPath b
                       | none => fs3
            match fs4.readFile outputPath with
            | none =>
              ⟨⟨500, [], RBody.json [("error", "Failed to read converted file")]⟩,
               fs4.removeAll tempDir, [("cwebp", args)]⟩
            | some webpData =>
              ⟨⟨200, [("Content-Disposition", "attachment; filename=" ++ outputFilename)],
                RBody.data ("image/webp") webpData⟩,
               fs4.removeAll tempDir, [("cwebp", args)]⟩

/-- Route table registered by the first `main.go` variant. -/
def routesMain : List (String × String) :=
  [("GET", "/health"), ("GET", "/debug"), ("POST", "/convert")]

/-- Route table registered by the second (Railway) `main.go` variant. -/
def routesRailway : List (String × String) :=
  [("GET", "/health"), ("POST", "/convert")]

/-- Route table registered by the `part_000` variant. -/
def routesPart000 : List (String × String) :=
  [("POST", "/convert")]

/-- Route table registered by the `part_001` variant. -/
def routesPart001 : List (String × String) :=
  [("GET", "/health"), ("POST", "/convert")]

/-- The /health closure (identical wherever registered):
`c.JSON(http.StatusOK, gin.H{"status": "ok"})`, reading nothing from the
request's world and performing no effect. -/
def healthHandler (_ : World) : Response :=
  ⟨200, [], RBody.json [("status", "ok")]⟩

/-- The `router.MaxMultipartMemory = 10 << 20` assignment of the first
`main.go` variant (set before `router.Run`). -/
def maxMultipartMemoryMain : Nat := 10 <<< 20

/-- The `router.MaxMultipartMemory = 10 << 20` assignment of the second
(Railway) `main.go` variant (set before `router.Run`). -/
def maxMultipartMemoryRailway : Nat := 10 <<< 20

/-- The `router.MaxMultipartMemory = 10 << 20` assignment of the
`part_000` variant (set before `router.Run`). -/
def maxMultipartMemoryPart000 : Nat := 10 <<< 20

/-- The `router.MaxMultipartMemory = 10 << 20` assignment of the
`part_001` variant (set before `router.Run`). -/
def maxMultipartMemoryPart001 : Nat := 10 <<< 20

/-- Modelled from the spec: the output name is the input filename with
everything from the last dot onward stripped (the name itself when it has
no dot).  Stated over the reversed character list. -/
def stripAfterLastDotRev : List Char → Option (List Char)
  | [] => none
  | c :: rest => if c = '.' then some rest else stripAfterLastDotRev rest

/-- Modelled from the spec: "filenameWithoutExt strips everything from
the last dot of the name onward". -/
def specStripLastDot (s : String) : String :=
  match stripAfterLastDotRev s.data.reverse with
  | some r => String.mk r.reverse
  | none => s

/-- Concrete world exercising the part_000 handler: a well-formed upload,
an absolute LIBWEBP_PATH override, and the quality parameter "50". -/
def worldQ50 : World :=
  ⟨⟨[], []⟩, some ⟨"a.png", [1]⟩, Except.ok ("/tmp/t"), false, false,
   "/opt/libwebp", Except.ok ("/srv"), some ("50"),
   fun _ _ => EncoderResult.fail ("boom")⟩

/-- Concrete world whose multipart form has no image field. -/
def worldNoUpload : World :=
  ⟨⟨["/keep"], [("/keep/f", [7])]⟩, none, Except.ok ("/tmp/t"), false, false,
   "", Except.ok ("/w"), none, fun _ _ => EncoderResult.fail ("x")⟩

/-- Claim C10: every variant sets the multipart in-memory limit
`MaxMultipartMemory` to `10 << 20` = 10485760 bytes. -/
theorem claim_C10_max_multipart_memory :
    maxMultipartMemoryMain = 10485760 ∧ maxMultipartMemoryRailway = 10485760 ∧
    maxMultipartMemoryPart000 = 10485760 ∧ maxMultipartMemoryPart001 = 10485760 :=
  ⟨rfl, rfl, rfl, rfl⟩

/-- Claim C9 counterexample: the part_000 variant registers no /health
route at all (the router serves only POST /convert), so "in every variant
GET /health returns 200 with body ..." fails on that variant. -/
theorem claim_C9_counterexample :
    ¬ (("GET", "/health") ∈ routesPart000) := by
  decide

/-- Claim C9 as amended: in the three variants that register a /health
route (both main.go variants and part_001) GET /health answers 200 with
body the JSON object with field status = ok, ignoring the whole request
world (hence independent of encoder availability and effect-free);
part_000 registers no /health route. -/
theorem claim_C9_health_amended (w w' : World) :
    healthHandler w = ⟨200, [], RBody.json [("status", "ok")]⟩ ∧
    healthHandler w = healthHandler w' ∧
    renderJson [("status", "ok")] = "\x7b\"status\":\"ok\"\x7d" ∧
    ("GET", "/health") ∈ routesMain ∧
    ("GET", "/health") ∈ routesRailway ∧
    ("GET", "/health") ∈ routesPart001 ∧
    ¬ (("GET", "/health") ∈ routesPart000) := by
  refine ⟨rfl, rfl, by decide, ?_, ?_, ?_, ?_⟩ <;> decide

/-- Claim C2 counterexample: the part_000 variant ignores a supplied
quality parameter; with quality "50" (a valid integer string in [0,100])
the encoder is still invoked with -q "80". -/
theorem claim_C2_counterexample :
    worldQ50.quality = some ("50") ∧ validQuality ("50") = true ∧
    (convertToWebPPart000 worldQ50).exec =
      [("/srv/opt/libwebp/bin/cwebp", ["-q", "80", "/tmp/t/a.png", "-o", "/tmp/t/a.webp"])] ∧
    ¬ ((["-q", "80", "/tmp/t/a.png", "-o", "/tmp/t/a.webp"] : List String).get? 1 = some ("50")) := by
  refine ⟨rfl, by decide, by decide, by decide⟩

/-- Claim C2 as amended: in the variants that read the quality query
parameter (both main.go variants and part_001) every encoder invocation
carries as the value of -q exactly the supplied string, or "80" when the
parameter is omitted; the part_000 variant always invokes the encoder
with -q "80" regardless of the request. -/
theorem claim_C2_quality_amended :
    (∀ w p a, (convertToWebPMain w).exec = [(p, a)] →
      a.get? 1 = some (ginDefaultQuery w.quality ("80"))) ∧
    (∀ w p a, (convertToWebPRailway w).exec = [(p, a)] →
      a.get? 1 = some (ginDefaultQuery w.quality ("80"))) ∧
    (∀ w p a, (convertToWebPPart001 w).exec = [(p, a)] →
      a.get? 1 = some (ginDefaultQuery w.quality ("80"))) ∧
    (∀ w p a, (convertToWebPPart000 w).exec = [(p, a)] →
      a.get? 1 = some ("80")) := by
  refine ⟨?_, ?_, ?_, ?_⟩ <;>
  · intro w p a h
    simp only [convertToWebPMain, convertToWebPRailway, convertToWebPPart001,
      convertToWebPPart000] at h
    repeat' split at h
    all_goals simp_all
    all_goals
      rcases h with ⟨h1, h2⟩
    all_goals subst h2
    all_goals rfl

/-- Claim C2 witness: a request to the main.go handler supplying quality
"50" invokes the encoder with -q "50". -/
theorem claim_C2_witness :
    ((["-q", "50", "/tmp/t/a.png", "-o", "/tmp/t/a.webp"] : List String).get? 1 =
      some (ginDefaultQuery (some ("50")) ("80"))) := by
  have h := claim_C2_quality_amended.1 worldQ50 ("/opt/libwebp/bin/cwebp")
    (["-q", "50", "/tmp/t/a.png", "-o", "/tmp/t/a.webp"]) (by decide)
  exact h

/-- Claim C3 counterexample: for the absolute override "/opt/libwebp" the
part_000 variant resolves the encoder to the override joined AFTER the
working directory "/srv", not to the override joined directly with
bin/cwebp, so the ordered policy's first rule fails on that variant. -/
theorem claim_C3_counterexample :
    goHasPre worldQ50.libwebpPath ("/") = true ∧
    (convertToWebPPart000 worldQ50).exec =
      [("/srv/opt/libwebp/bin/cwebp", ["-q", "80", "/tmp/t/a.png", "-o", "/tmp/t/a.webp"])] ∧
    cwebpPathPart000 ("/srv") worldQ50.libwebpPath = "/srv/opt/libwebp/bin/cwebp" ∧
    ¬ ("/srv/opt/libwebp/bin/cwebp" = filepathJoin [worldQ50.libwebpPath, "bin", "cwebp"]) := by
  refine ⟨by decide, by decide, by decide, by decide⟩

/-- Claim C3 as amended: the ordered resolution policy (absolute override
joined directly with bin/cwebp independently of the working directory;
relative override joined after the working directory; documented fixed
default — bare "cwebp" in the first main.go variant, the fixed absolute
install location in the Railway variant) holds for getCwebpPath in both
main.go variants; the part_000 variant instead requires the override and
always joins it after the working directory, even when absolute. -/
theorem claim_C3_resolution_amended :
    (∀ p g, ¬ (p = "") → goHasPre p ("/") = true →
      getCwebpPath ⟨p, g⟩ = Except.ok (filepathJoin [p, "bin", "cwebp"]) ∧
      getCwebpPathRailway ⟨p, g⟩ = Except.ok (filepathJoin [p, "bin", "cwebp"])) ∧
    (∀ p wd, ¬ (p = "") → ¬ (goHasPre p ("/") = true) →
      getCwebpPath ⟨p, Except.ok wd⟩ = Except.ok (filepathJoin [wd, p, "bin", "cwebp"]) ∧
      getCwebpPathRailway ⟨p, Except.ok wd⟩ = Except.ok (filepathJoin [wd, p, "bin", "cwebp"])) ∧
    (∀ g, getCwebpPath ⟨"", g⟩ = Except.ok ("cwebp") ∧
      getCwebpPathRailway ⟨"", g⟩ = Except.ok ("/app/libwebp/bin/cwebp")) ∧
    (∀ wd p, cwebpPathPart000 wd p = filepathJoin [wd, p, "bin", "cwebp"]) := by
  refine ⟨?_, ?_, ?_, ?_⟩
  · intro p g hp hpre
    constructor <;> simp [getCwebpPath, getCwebpPathRailway, hp, hpre]
  · intro p wd hp hpre
    constructor <;> simp [getCwebpPath, getCwebpPathRailway, hp, hpre]
  · intro g
    constructor <;> simp [getCwebpPath, getCwebpPathRailway]
  · intro wd p
    rfl

/-- Claim C3 witness: with the absolute override "/opt/libwebp" the
main.go resolver yields "/opt/libwebp/bin/cwebp" whatever os.Getwd would
have answered. -/
theorem claim_C3_witness :
    ¬ ("/opt/libwebp" = "") ∧ goHasPre ("/opt/libwebp") ("/") = true ∧
    getCwebpPath ⟨"/opt/libwebp", Except.error ("wd unavailable")⟩ =
      Except.ok ("/opt/libwebp/bin/cwebp") := by
  refine ⟨by decide, by decide, ?_⟩
  have h := (claim_C3_resolution_amended.1 ("/opt/libwebp")
    (Except.error ("wd unavailable")) (by decide) (by decide)).1
  exact h.trans (by rfl)

/-- Claim C4: a request whose multipart form yields no image file gets
status 400 with body the JSON object with the static error message, and
the filesystem is untouched — no temporary directory or file is created
(shown for all four variants). -/
theorem claim_C4_missing_image (w : World) (h : w.formFile = none) :
    convertToWebPMain w =
      ⟨⟨400, [], RBody.json [("error", "No image file provided")]⟩, w.fs0, []⟩ ∧
    convertToWebPRailway w =
      ⟨⟨400, [], RBody.json [("error", "No image file provided")]⟩, w.fs0, []⟩ ∧
    convertToWebPPart000 w =
      ⟨⟨400, [], RBody.json [("error", "No image file provided")]⟩, w.fs0, []⟩ ∧
    convertToWebPPart001 w =
      ⟨⟨400, [], RBody.json [("error", "No image file provided")]⟩, w.fs0, []⟩ ∧
    renderJson [("error", "No image file provided")] =
      "\x7b\"error\":\"No image file provided\"\x7d" := by
  refine ⟨?_, ?_, ?_, ?_, rfl⟩ <;>
    simp [convertToWebPMain, convertToWebPRailway, convertToWebPPart000,
      convertToWebPPart001, h]

/-- Claim C4 witness: a concrete request with no image field leaves the
prior filesystem (a directory and one file) exactly in place and answers
400. -/
theorem claim_C4_witness :
    convertToWebPMain worldNoUpload =
      ⟨⟨400, [], RBody.json [("error", "No image file provided")]⟩, worldNoUpload.fs0, []⟩ :=
  (claim_C4_missing_image worldNoUpload rfl).1

/-- Concrete world for a fully successful conversion. -/
def worldSuccess : World :=
  ⟨⟨[], []⟩, some ⟨"photo.JPG", [1, 2]⟩, Except.ok ("/tmp/t"), false, false,
   "", Except.ok ("/w"), none, fun _ _ => EncoderResult.ok (some [82, 73, 70, 70])⟩

/-- Claim C8: on the main.go handler every response status is 200, 400 or
500; 400 happens exactly for a missing image field; every non-200
response is a JSON object carrying an error field (and hence never raw
image bytes); every 200 response is an image/webp data body. -/
theorem claim_C8_failure_shape (w : World) :
    ((convertToWebPMain w).response.status = 200 ∨
     (convertToWebPMain w).response.status = 400 ∨
     (convertToWebPMain w).response.status = 500) ∧
    ((convertToWebPMain w).response.status = 400 ↔ w.formFile = none) ∧
    (¬ ((convertToWebPMain w).response.status = 200) →
      ∃ fields, (convertToWebPMain w).response.body = RBody.json fields ∧
        (∃ v, ("error", v) ∈ fields) ∧
        ∀ ct bs, ¬ ((convertToWebPMain w).response.body = RBody.data ct bs)) ∧
    ((convertToWebPMain w).response.status = 200 →
      ∃ bs, (convertToWebPMain w).response.body = RBody.data ("image/webp") bs) := by
  simp only [convertToWebPMain]
  repeat' split
  all_goals simp_all

/-- Claim C8 witness: the missing-image world answers 400. -/
theorem claim_C8_witness :
    (convertToWebPMain worldNoUpload).response.status = 400 ↔
      worldNoUpload.formFile = none :=
  (claim_C8_failure_shape worldNoUpload).2.1

/-- Claim C7: when the upload is present, staging succeeds, the encoder
resolves and exits zero having produced output bytes `b ≠ []`, the
main.go handler answers 200 with content type image/webp, the attachment
Content-Disposition header named by the derived output filename, and the
body exactly the produced file's bytes. -/
theorem claim_C7_success (w : World) (u : Upload) (d p : String) (b : List Nat)
    (hf : w.formFile = some u) (ht : w.tempDirResult = Except.ok d)
    (hc : w.createFails = false) (hcp : w.copyFails = false)
    (hpath : getCwebpPath ⟨w.libwebpPath, w.getwdResult⟩ = Except.ok p)
    (henc : w.encoder p ["-q", ginDefaultQuery w.quality ("80"), filepathJoin [d, u.filename],
        "-o", filepathJoin [d, filenameWithoutExt u.filename ++ ".webp"]] =
      EncoderResult.ok (some b))
    (hb : ¬ (b = [])) :
    (convertToWebPMain w).response =
      ⟨200, [("Content-Disposition", "attachment; filename=" ++
              (filenameWithoutExt u.filename ++ ".webp"))],
       RBody.data ("image/webp") b⟩ ∧
    ¬ (b = []) := by
  refine ⟨?_, hb⟩
  simp only [convertToWebPMain, hf, ht, hc, hcp, hpath, henc, if_false,
    Bool.false_eq_true, Fs.readFile, Fs.writeFile, List.find?]
  simp

/-- Claim C7 witness: a concrete successful conversion of photo.JPG
returns 200 with the attachment header photo.webp and the produced
bytes. -/
theorem claim_C7_witness :
    (convertToWebPMain worldSuccess).response =
      ⟨200, [("Content-Disposition", "attachment; filename=photo.webp")],
       RBody.data ("image/webp") [82, 73, 70, 70]⟩ := by
  have h := (claim_C7_success worldSuccess ⟨"photo.JPG", [1, 2]⟩ ("/tmp/t") ("cwebp")
    ([82, 73, 70, 70]) rfl rfl rfl rfl (by simp [getCwebpPath, worldSuccess]) rfl
    (by decide)).1
  exact h.trans (by decide)

/-- The temp directory is under itself. -/
theorem underOrEq_self (d : String) : underOrEq d d = true := by
  simp [underOrEq]

/-- A path with the directory's slash-terminated name as prefix is under
the directory. -/
theorem underOrEq_of_pre (d p : String) (h : goHasPre p (d ++ "/") = true) :
    underOrEq d p = true := by
  simp [underOrEq, h]

/-- Every exit of the main.go handler taken after the temporary directory
exists ends in `RemoveAll tempDir` applied to a filesystem whose
directories are the temp directory or pre-existing and whose files sit at
the staged input path, the output path, or pre-exist. -/
theorem mainFsCases (w : World) (u : Upload) (d : String)
    (hf : w.formFile = some u) (ht : w.tempDirResult = Except.ok d) :
    ∃ fsx : Fs,
      (convertToWebPMain w).fs = fsx.removeAll d ∧
      (∀ q ∈ fsx.dirs, q = d ∨ q ∈ w.fs0.dirs) ∧
      (∀ e ∈ fsx.files, e.1 = filepathJoin [d, u.filename] ∨
        e.1 = filepathJoin [d, filenameWithoutExt u.filename ++ ".webp"] ∨
        e ∈ w.fs0.files) := by
  simp only [convertToWebPMain, hf, ht]
  repeat' split
  all_goals refine ⟨_, rfl, ?_, ?_⟩
  all_goals intro x hx
  all_goals simp only [Fs.mkdir, Fs.writeFile, List.mem_cons, List.mem_filter] at hx
  all_goals try casesm* _ ∨ _, _ ∧ _
  all_goals subst_vars
  all_goals simp_all

/-- Claim C6: once the temporary directory has been created, every exit
path of the main.go handler removes it together with the transient files
inside it: provided the staged input and output paths land beneath the
temporary directory (true of genuine multipart file names, which contain
no separator), the final filesystem holds nothing under the temporary
directory and nothing that was not already there before the request. -/
theorem claim_C6_cleanup (w : World) (u : Upload) (d : String)
    (hf : w.formFile = some u) (ht : w.tempDirResult = Except.ok d)
    (hin : goHasPre (filepathJoin [d, u.filename]) (d ++ "/") = true)
    (hout : goHasPre (filepathJoin [d, filenameWithoutExt u.filename ++ ".webp"])
      (d ++ "/") = true) :
    (∀ q ∈ (convertToWebPMain w).fs.dirs, q ∈ w.fs0.dirs ∧ underOrEq d q = false) ∧
    (∀ e ∈ (convertToWebPMain w).fs.files, e ∈ w.fs0.files ∧ underOrEq d e.1 = false) := by
  obtain ⟨fsx, hfs, hdirs, hfiles⟩ := mainFsCases w u d hf ht
  rw [hfs]
  constructor
  · intro q hq
    simp only [Fs.removeAll, List.mem_filter] at hq
    obtain ⟨hq1, hq2⟩ := hq
    simp only [decide_eq_true_eq, Bool.not_eq_true] at hq2
    rcases hdirs q hq1 with h | h
    · rw [h] at hq2
      rw [underOrEq_self d] at hq2
      cases hq2
    · exact ⟨h, hq2⟩
  · intro e he
    simp only [Fs.removeAll, List.mem_filter] at he
    obtain ⟨he1, he2⟩ := he
    simp only [decide_eq_true_eq, Bool.not_eq_true] at he2
    rcases hfiles e he1 with h | h | h
    · rw [← h] at hin
      rw [underOrEq_of_pre d e.1 hin] at he2
      cases he2
    · rw [← h] at hout
      rw [underOrEq_of_pre d e.1 hout] at he2
      cases he2
    · exact ⟨h, he2⟩

/-- Claim C6 witness: a concrete successful conversion leaves the
(previously empty) filesystem with nothing under /tmp/t. -/
theorem claim_C6_witness :
    (∀ q ∈ (convertToWebPMain worldSuccess).fs.dirs,
      q ∈ worldSuccess.fs0.dirs ∧ underOrEq ("/tmp/t") q = false) ∧
    (∀ e ∈ (convertToWebPMain worldSuccess).fs.files,
      e ∈ worldSuccess.fs0.files ∧ underOrEq ("/tmp/t") e.1 = false) :=
  claim_C6_cleanup worldSuccess ⟨"photo.JPG", [1, 2]⟩ ("/tmp/t") rfl rfl
    (by decide) (by decide)

/-- Concrete world where the encoder exits non-zero with diagnostic
output. -/
def worldEncoderFail : World :=
  ⟨⟨[], []⟩, some ⟨"img.png", [5]⟩, Except.ok ("/tmp/t"), false, false, "",
   Except.ok ("/w"), none, fun _ _ => EncoderResult.fail ("Error! Could not process file")⟩

/-- Claim C5: on the main.go handler a details field appears in a
response exactly for an encoder failure, and then it carries the
subprocess's combined captured output verbatim; the four listed failure
kinds (missing input, temp-area failure, persist failure, output-read
failure) answer with a static error message and no details field; and an
encoder run that exited zero leads to 200 or to the static read-failure
message. -/
theorem claim_C5_details_policy (w : World) :
    (∀ fields v, (convertToWebPMain w).response.body = RBody.json fields →
      ("details", v) ∈ fields →
      fields = [("error", "Failed to convert image"), ("details", v)]) ∧
    (∀ fields v, (convertToWebPMain w).response.body = RBody.json fields →
      ("details", v) ∈ fields →
      ∀ p a, (convertToWebPMain w).exec = [(p, a)] →
        w.encoder p a = EncoderResult.fail v) ∧
    (∀ fields v, (convertToWebPMain w).response.body = RBody.json fields →
      ("details", v) ∈ fields →
      ¬ ((convertToWebPMain w).exec = [])) ∧
    (∀ p a o, (convertToWebPMain w).exec = [(p, a)] →
      w.encoder p a = EncoderResult.fail o →
      (convertToWebPMain w).response =
        ⟨500, [], RBody.json [("error", "Failed to convert image"), ("details", o)]⟩) ∧
    (w.formFile = none →
      (convertToWebPMain w).response =
        ⟨400, [], RBody.json [("error", "No image file provided")]⟩) ∧
    (∀ u, w.formFile = some u → w.tempDirResult = Except.error () →
      (convertToWebPMain w).response =
        ⟨500, [], RBody.json [("error", "Failed to create temp directory")]⟩) ∧
    (∀ u d, w.formFile = some u → w.tempDirResult = Except.ok d →
      w.createFails = true →
      (convertToWebPMain w).response =
        ⟨500, [], RBody.json [("error", "Failed to save uploaded file")]⟩) ∧
    (∀ u d, w.formFile = some u → w.tempDirResult = Except.ok d →
      w.createFails = false → w.copyFails = true →
      (convertToWebPMain w).response =
        ⟨500, [], RBody.json [("error", "Failed to copy uploaded file")]⟩) ∧
    (∀ p a wr, (convertToWebPMain w).exec = [(p, a)] →
      w.encoder p a = EncoderResult.ok wr →
      (convertToWebPMain w).response.status = 200 ∨
      (convertToWebPMain w).response =
        ⟨500, [], RBody.json [("error", "Failed to read converted file")]⟩) := by
  refine ⟨?_, ?_, ?_, ?_, ?_, ?_, ?_, ?_, ?_⟩
  · intro fields v hb hm
    simp only [convertToWebPMain] at hb ⊢
    repeat' split at hb
    all_goals dsimp only at hb
    all_goals try simp only [RBody.json.injEq] at hb
    all_goals try subst hb
    all_goals simp_all
  · intro fields v hb hm p a hx
    simp only [convertToWebPMain] at hb hx ⊢
    repeat' split at hb
    all_goals dsimp only at hb hx
    all_goals try simp only [RBody.json.injEq] at hb
    all_goals try subst hb
    all_goals simp_all
  · intro fields v hb hm hx
    simp only [convertToWebPMain] at hb hx ⊢
    repeat' split at hb
    all_goals dsimp only at hb hx
    all_goals try simp only [RBody.json.injEq] at hb
    all_goals try subst hb
    all_goals simp_all
  · intro p a o hx he
    simp only [convertToWebPMain] at hx ⊢
    repeat' split at hx
    all_goals simp_all
  · intro h
    simp [convertToWebPMain, h]
  · intro u h ht
    simp [convertToWebPMain, h, ht]
  · intro u d h ht hc
    simp [convertToWebPMain, h, ht, hc]
  · intro u d h ht hc hcp
    simp [convertToWebPMain, h, ht, hc, hcp]
  · intro p a wr hx he
    simp only [convertToWebPMain] at hx ⊢
    repeat' split at hx
    all_goals simp_all

/-- Claim C5 witness: a concrete encoder failure returns 500 with the
captured output verbatim in the details field. -/
theorem claim_C5_witness :
    (convertToWebPMain worldEncoderFail).response =
      ⟨500, [], RBody.json [("error", "Failed to convert image"),
        ("details", "Error! Could not process file")]⟩ :=
  (claim_C5_details_policy worldEncoderFail).2.2.2.1 ("cwebp")
    (["-q", "80", "/tmp/t/img.png", "-o", "/tmp/t/img.webp"])
    ("Error! Could not process file") (by decide) rfl

/-- Decomposition relating the extension scanner and the strip-suffix
scanner on a separator-free reversed name: either there is no dot and no
extension, or the reversed name splits as the reversed extension followed
by the stripped remainder. -/
theorem extRev_stripRev (r : List Char) (h : ∀ c ∈ r, ¬ (c = '/')) :
    (stripAfterLastDotRev r = none ∧ extRev r = []) ∨
    (∃ t, stripAfterLastDotRev r = some t ∧ ¬ (extRev r = []) ∧ extRev r ++ t = r) := by
  induction r with
  | nil => exact Or.inl ⟨rfl, rfl⟩
  | cons c rest ih =>
    have hc : ¬ (c = '/') := h c (List.mem_cons_self c rest)
    have hrest : ∀ x ∈ rest, ¬ (x = '/') := fun x hx => h x (List.mem_cons_of_mem c hx)
    by_cases hdot : c = '.'
    · subst hdot
      refine Or.inr ⟨rest, ?_, ?_, ?_⟩
      · simp [stripAfterLastDotRev]
      · simp [extRev]
      · simp [extRev]
    · rcases ih hrest with ⟨h1, h2⟩ | ⟨t, h1, h2, h3⟩
      · refine Or.inl ⟨?_, ?_⟩
        · simp [stripAfterLastDotRev, hdot, h1]
        · simp [extRev, hc, hdot, h2]
      · refine Or.inr ⟨t, ?_, ?_, ?_⟩
        · simp [stripAfterLastDotRev, hdot, h1]
        · cases he : extRev rest with
          | nil => exact absurd he h2
          | cons e es => simp [extRev, hc, hdot, he]
        · cases he : extRev rest with
          | nil => exact absurd he h2
          | cons e es =>
            have hx : extRev (c :: rest) = c :: (e :: es) := by
              simp [extRev, hc, hdot, he]
            rw [hx]
            rw [he] at h3
            rw [← h3]
            simp

/-- Taking everything but the extension's length from the name equals the
spec's strip-after-last-dot, for separator-free names (stated on the
reversed character list `r`). -/
theorem take_all_but_ext (r : List Char) (h : ∀ c ∈ r, ¬ (c = '/')) :
    r.reverse.take (r.reverse.length - (extRev r).length) =
      (match stripAfterLastDotRev r with
       | some t => t.reverse
       | none => r.reverse) := by
  rcases extRev_stripRev r h with ⟨h1, h2⟩ | ⟨t, h1, h2, h3⟩
  · rw [h1, h2]
    simp
  · rw [h1]
    have hrev : r.reverse = t.reverse ++ (extRev r).reverse := by
      rw [← List.reverse_append, h3]
    rw [hrev]
    have hlen : (t.reverse ++ (extRev r).reverse).length - ((extRev r)).length =
        t.reverse.length := by
      simp
    rw [hlen]
    exact List.take_left t.reverse ((extRev r).reverse)

/-- Claim C1: for separator-free names (multipart filenames carry no
separator) the derived output name is the input name with everything from
its last dot onward stripped and ".webp" appended, matching the spec's
description and its three examples. -/
theorem claim_C1_output_filename :
    (∀ s : String, (∀ c ∈ s.data, ¬ (c = '/')) →
      filenameWithoutExt s ++ ".webp" = specStripLastDot s ++ ".webp") ∧
    (filenameWithoutExt ("photo.JPG") ++ ".webp" = "photo.webp") ∧
    (filenameWithoutExt ("archive.tar.gz") ++ ".webp" = "archive.tar.webp") ∧
    (filenameWithoutExt ("noext") ++ ".webp" = "noext.webp") := by
  refine ⟨?_, by decide, by decide, by decide⟩
  intro s h
  have hr : ∀ c ∈ s.data.reverse, ¬ (c = '/') := by
    intro c hc
    exact h c (List.mem_reverse.mp hc)
  have key := take_all_but_ext s.data.reverse hr
  rw [List.reverse_reverse] at key
  congr 1
  simp only [filenameWithoutExt, filepathExt, List.length_reverse]
  cases hst : stripAfterLastDotRev s.data.reverse with
  | none =>
    rw [hst] at key
    simp only [specStripLastDot, hst]
    rw [key]
  | some t =>
    rw [hst] at key
    simp only [specStripLastDot, hst]
    rw [key]

/-- Claim C9 witness: the health closure applied to a concrete world
(one whose encoder invocation would fail) still answers 200 ok. -/
theorem claim_C9_witness :
    healthHandler worldNoUpload = ⟨200, [], RBody.json [("status", "ok")]⟩ :=
  (claim_C9_health_amended worldNoUpload worldQ50).1

/-- Claim C1 witness: the general statement applied to the concrete name
photo.JPG. -/
theorem claim_C1_witness :
    filenameWithoutExt ("photo.JPG") ++ ".webp" = specStripLastDot ("photo.JPG") ++ ".webp" :=
  claim_C1_output_filename.1 ("photo.JPG") (by decide)

end WebpService
